import Mathlib

/-!
Verification of the streaming/auth core of the Stock-Broker-Client-Web-Dashboard
repository, shallowly embedded in Lean.

The price-simulation engine, broadcast scheduler, socket room reconciliation,
auth middleware, login/lockout, refresh-token rotation, registration and
subscription controllers are translated from the JavaScript source
(Backend/sockets/stockSocket.js, Backend/utils/authMiddleware.js,
Backend/models/User.js, Backend/controllers/authController.js,
Backend/controllers/stockController.js).

External collaborators (the jsonwebtoken library, the crypto SHA-256 digest,
bcrypt) are modelled at their documented interface: a signed JWT is the pair
of its payload and the signing secret (HMAC verification succeeds exactly when
the secrets agree), and the one-way hashes are modelled as injective
constructors, reflecting collision resistance.  Values produced by
Math.random and Date.now are passed in as explicit parameters.
-/

namespace StockBroker

/-! ### Price simulation engine (Backend/sockets/stockSocket.js) -/

/-- The fixed supported ticker set, as an enumerated type. -/
inductive Ticker
  | AAPL | GOOG | TSLA | AMZN | META | NVDA | MSFT
deriving DecidableEq, Repr

/-- SUPPORTED_STOCKS list from stockSocket.js. -/
def SUPPORTED_TICKERS : List Ticker :=
  [.AAPL, .GOOG, .TSLA, .AMZN, .META, .NVDA, .MSFT]

/-- basePrices object: base prices used to compute percentage change. -/
def basePrices : Ticker → ℚ
  | .AAPL => 193.42
  | .GOOG => 191.41
  | .TSLA => 389.22
  | .AMZN => 180.50
  | .META => 591.55
  | .NVDA => 138.25
  | .MSFT => 448.39

/-- stockPrices object as initialised at module load (same seed values). -/
def initialStockPrices : Ticker → ℚ
  | .AAPL => 193.42
  | .GOOG => 191.41
  | .TSLA => 389.22
  | .AMZN => 180.50
  | .META => 591.55
  | .NVDA => 138.25
  | .MSFT => 448.39

/-- The process-wide mutable simulation state: stockPrices and priceHistory. -/
structure PriceState where
  stockPrices : Ticker → ℚ
  priceHistory : Ticker → List ℚ

/-- Initial state: priceHistory[ticker] = [stockPrices[ticker]]. -/
def seedState : PriceState :=
  { stockPrices := initialStockPrices
    priceHistory := fun t => [initialStockPrices t] }

/-- Number(x.toFixed(2)): rounding to two decimal places. -/
def round2 (q : ℚ) : ℚ := (round (q * 100) : ℚ) / 100

/-- generatePrice: currentPrice plus a random delta in [-2, 2], rounded to two
decimals and then floored at 1.  The value of (Math.random() - 0.5) * 4 is the
explicit parameter delta. -/
def generatePrice (currentPrice delta : ℚ) : ℚ :=
  max 1 (round2 (currentPrice + delta))

/-- calculateChange: percent change from the base price, rounded to 2 decimals. -/
def calculateChange (st : PriceState) (ticker : Ticker) : ℚ :=
  round2 ((st.stockPrices ticker - basePrices ticker) / basePrices ticker * 100)

/-- history.push(p) followed by history.shift() once length exceeds 50. -/
def capHistory (l : List ℚ) : List ℚ :=
  if l.length > 50 then l.tail else l

/-- The body of the forEach loop in updatePrices for a single ticker:
mutate stockPrices[ticker] with generatePrice, push onto priceHistory[ticker]
and drop the oldest point once the history exceeds 50 entries. -/
def tickTicker (delta : Ticker → ℚ) (st : PriceState) (ticker : Ticker) : PriceState :=
  let newPrice := generatePrice (st.stockPrices ticker) (delta ticker)
  { stockPrices := Function.update st.stockPrices ticker newPrice
    priceHistory := Function.update st.priceHistory ticker
      (capHistory (st.priceHistory ticker ++ [newPrice])) }

/-- The state mutation performed by updatePrices: the forEach loop over
SUPPORTED_STOCKS. -/
def updatePricesState (delta : Ticker → ℚ) (st : PriceState) : PriceState :=
  SUPPORTED_TICKERS.foldl (tickTicker delta) st

/-- One entry of the getFullStockData object: price, change and the last 20
history points. -/
structure StockEntry where
  price : ℚ
  change : ℚ
  history : List ℚ
deriving DecidableEq, Repr

/-- arr.slice(-20): the last (at most) 20 points. -/
def sliceLast20 (l : List ℚ) : List ℚ := l.drop (l.length - 20)

/-- getFullStockData: per supported ticker, price, change and history tail. -/
def getFullStockData (st : PriceState) : Ticker → StockEntry :=
  fun ticker =>
    { price := st.stockPrices ticker
      change := calculateChange st ticker
      history := sliceLast20 (st.priceHistory ticker) }

/-- The return value of updatePrices: the full post-tick snapshot plus the
tick timestamp (new Date().toISOString(), passed in explicitly). -/
structure PricePayload where
  stocks : Ticker → StockEntry
  timestamp : String

/-- updatePrices: mutates all prices, then builds one snapshot from the
mutated state. -/
def updatePrices (delta : Ticker → ℚ) (timestamp : String) (st : PriceState) :
    PriceState × PricePayload :=
  let st2 := updatePricesState delta st
  (st2, { stocks := getFullStockData st2, timestamp := timestamp })

/-- Payload of the all_prices_update event. -/
structure AllPricesUpdate where
  stocks : Ticker → StockEntry
  timestamp : String

/-- Payload of a per-ticker price_update event. -/
structure PriceUpdate where
  ticker : Ticker
  price : ℚ
  change : ℚ
  history : List ℚ
  timestamp : String
deriving DecidableEq, Repr

/-- The body of the setInterval broadcast in setupSocket: call updatePrices
once, emit all_prices_update built from priceData, then per supported ticker
emit a price_update read from priceData.stocks[ticker]. -/
def broadcastTick (delta : Ticker → ℚ) (timestamp : String) (st : PriceState) :
    PriceState × AllPricesUpdate × List PriceUpdate :=
  let res := updatePrices delta timestamp st
  let priceData := res.2
  (res.1,
   { stocks := priceData.stocks, timestamp := priceData.timestamp },
   SUPPORTED_TICKERS.map fun ticker =>
     { ticker := ticker
       price := (priceData.stocks ticker).price
       change := (priceData.stocks ticker).change
       history := (priceData.stocks ticker).history
       timestamp := priceData.timestamp })

/-- Iterated scheduler ticks: one delta function per tick. -/
def runTicks (deltas : List (Ticker → ℚ)) (st : PriceState) : PriceState :=
  deltas.foldl (fun s d => updatePricesState d s) st

/-! ### Ticker room reconciliation (stockSocket.js)

Room names are JavaScript strings; we embed them as character lists so that
the startsWith test is the list-prefix test.  A socket's room set
(socket.rooms) is a JS Set of room names, embedded as a Finset. -/

/-- Room names, as character lists. -/
abbrev RoomName := List Char

/-- The literal room-name tag used by getTickerRoom and the startsWith test. -/
def tickerTag : RoomName := ['t', 'i', 'c', 'k', 'e', 'r', ':']

/-- getTickerRoom: the string ticker:<t>. -/
def mkTickerRoom (ticker : RoomName) : RoomName := tickerTag ++ ticker

/-- r.startsWith('ticker:'). -/
def hasTickerTag (r : RoomName) : Bool := tickerTag.isPrefixOf r

/-- getSocketTickerRooms: the rooms of the socket whose name starts with
ticker:. -/
def getSocketTickerRooms (rooms : Finset RoomName) : Finset RoomName :=
  rooms.filter (fun r => hasTickerTag r = true)

/-- syncTickerRooms: from the desired subscription list (null-coalesced to [])
compute the desired room set and the current ticker-room set, leave every
current room no longer desired and join every desired room not yet current.
The socket room set is a mathematical set, so leave/join become set
difference/union. -/
def syncTickerRooms (subscribedTickers : Option (List RoomName))
    (rooms : Finset RoomName) : Finset RoomName :=
  let desired := ((subscribedTickers.getD []).map mkTickerRoom).toFinset
  let current := getSocketTickerRooms rooms
  (rooms \ (current \ desired)) ∪ (desired \ current)

/-! ### Users, tokens and hashes (Backend/models/User.js, jsonwebtoken, crypto)

Times: nowMs is Date.now() in milliseconds; JWT claims (iat, exp) are in
seconds, iat = floor(nowMs / 1000) exactly as jsonwebtoken computes them. -/

/-- The payload of a JWT issued or checked by this application. -/
structure TokenPayload where
  id : Nat
  type : Option String
  iat : Nat
  exp : Nat
deriving DecidableEq, Repr

/-- A signed JWT, modelled as payload plus signing secret: verification with
secret s succeeds exactly when the token was signed with s. -/
structure SignedToken where
  payload : TokenPayload
  secret : String
deriving DecidableEq, Repr

/-- The two verify failures distinguished by the jsonwebtoken library. -/
inductive JwtError
  | TokenExpiredError
  | JsonWebTokenError
deriving DecidableEq, Repr

/-- jwt.verify(token, secret) at clock time nowSec: signature check, then the
expiry check (expired when exp is not in the future). -/
def jwtVerify (tok : SignedToken) (secret : String) (nowSec : Nat) :
    Except JwtError TokenPayload :=
  if tok.secret ≠ secret then .error .JsonWebTokenError
  else if tok.payload.exp ≤ nowSec then .error .TokenExpiredError
  else .ok tok.payload

/-- generateAccessToken: jwt.sign of id plus type access, secret JWT_SECRET,
expiresIn 15m. -/
def generateAccessToken (userId : Nat) (nowMs : Nat) (secret : String) : SignedToken :=
  { payload := { id := userId, type := some "access",
                 iat := nowMs / 1000, exp := nowMs / 1000 + 15 * 60 }
    secret := secret }

/-- generateRefreshToken: jwt.sign of id plus type refresh, secret
JWT_REFRESH_SECRET (defaulting to JWT_SECRET), expiresIn 7d. -/
def generateRefreshToken (userId : Nat) (nowMs : Nat) (secret : String) : SignedToken :=
  { payload := { id := userId, type := some "refresh",
                 iat := nowMs / 1000, exp := nowMs / 1000 + 7 * 24 * 60 * 60 }
    secret := secret }

/-- A SHA-256 hex digest of a token (crypto.createHash on the raw token).
The digest is modelled as an injective constructor: collision resistance. -/
structure Sha256Digest where
  preimage : SignedToken
deriving DecidableEq, Repr

/-- crypto.createHash of the raw refresh token. -/
def sha256 (tok : SignedToken) : Sha256Digest := { preimage := tok }

/-- A bcrypt password hash, modelled as an injective constructor; bcrypt
compare succeeds exactly on the hashed plaintext. -/
structure PwHash where
  plaintext : String
deriving DecidableEq, Repr

/-- bcrypt.hash of a plaintext password. -/
def hashPassword (plain : String) : PwHash := { plaintext := plain }

/-- One persisted user document (fields used by the verified flows). -/
structure UserRec where
  id : Nat
  name : String
  email : String
  password : PwHash
  subscribedStocks : List String
  refreshTokenHash : Option Sha256Digest
  refreshTokenExpiry : Option Nat
  lastLogin : Option Nat
  loginAttempts : Nat
  lockUntil : Option Nat
  passwordChangedAt : Option Nat
  isActive : Bool
deriving DecidableEq, Repr

/-- user.comparePassword(candidate): bcrypt.compare. -/
def comparePassword (u : UserRec) (candidate : String) : Bool :=
  u.password = hashPassword candidate

/-- user.changedPasswordAfter(JWTTimestamp): the password-change timestamp,
truncated to seconds, is strictly after the token issue time. -/
def changedPasswordAfter (u : UserRec) (jwtIatSec : Nat) : Bool :=
  match u.passwordChangedAt with
  | some tMs => decide (jwtIatSec < tMs / 1000)
  | none => false

/-- user.isLocked(): lockUntil is set and strictly in the future. -/
def isLocked (u : UserRec) (nowMs : Nat) : Bool :=
  match u.lockUntil with
  | some l => decide (nowMs < l)
  | none => false

/-- The expired-lock test at the top of incLoginAttempts: lockUntil is set and
strictly in the past. -/
def lockExpired (u : UserRec) (nowMs : Nat) : Bool :=
  match u.lockUntil with
  | some l => decide (l < nowMs)
  | none => false

/-- user.incLoginAttempts(): reset to a single failed attempt when a previous
lock has expired; otherwise increment, locking for 2 hours once the count
reaches 5. -/
def incLoginAttempts (u : UserRec) (nowMs : Nat) : UserRec :=
  if lockExpired u nowMs then
    { u with loginAttempts := 1, lockUntil := none }
  else if 5 ≤ u.loginAttempts + 1 then
    { u with loginAttempts := u.loginAttempts + 1,
             lockUntil := some (nowMs + 2 * 60 * 60 * 1000) }
  else
    { u with loginAttempts := u.loginAttempts + 1 }

/-- user.resetLoginAttempts(): zero the counter, stamp lastLogin, clear the
lock. -/
def resetLoginAttempts (u : UserRec) (nowMs : Nat) : UserRec :=
  { u with loginAttempts := 0, lastLogin := some nowMs, lockUntil := none }

/-- User.findById over the user collection. -/
def findById (db : List UserRec) (userId : Nat) : Option UserRec :=
  db.find? (fun u => u.id == userId)

/-! ### HTTP auth gate (Backend/utils/authMiddleware.js) -/

/-- The machine-readable 401 codes emitted by protect. -/
inductive AuthCode
  | NO_TOKEN
  | TOKEN_EXPIRED
  | INVALID_TOKEN
  | INVALID_TOKEN_TYPE
  | USER_NOT_FOUND
  | ACCOUNT_DEACTIVATED
  | PASSWORD_CHANGED
deriving DecidableEq, Repr

/-- The guard of the INVALID_TOKEN_TYPE branch: decoded.type is truthy (a
present, non-empty string) and differs from the string access. -/
def typeCheckRejects (ty : Option String) : Bool :=
  match ty with
  | none => false
  | some s => decide (s ≠ "") && decide (s ≠ "access")

/-- protect: the bearer token extracted from the Authorization header is
verified, the type discriminator is checked, the user is looked up, the
isActive flag and the password-change timestamp are checked; any failure
yields a 401 with its code. -/
def protect (db : List UserRec) (jwtSecret : String) (nowSec : Nat)
    (bearerToken : Option SignedToken) : Except AuthCode UserRec :=
  match bearerToken with
  | none => .error .NO_TOKEN
  | some tok =>
    match jwtVerify tok jwtSecret nowSec with
    | .error .TokenExpiredError => .error .TOKEN_EXPIRED
    | .error .JsonWebTokenError => .error .INVALID_TOKEN
    | .ok decoded =>
      if typeCheckRejects decoded.type then .error .INVALID_TOKEN_TYPE
      else
        match findById db decoded.id with
        | none => .error .USER_NOT_FOUND
        | some user =>
          if user.isActive = false then .error .ACCOUNT_DEACTIVATED
          else if changedPasswordAfter user decoded.iat then .error .PASSWORD_CHANGED
          else .ok user

/-! ### Socket handshake authentication (stockSocket.js, io.use middleware) -/

/-- Outcome of the io.use handshake middleware: next() with the bound user,
or next(Error(msg)) rejecting the connection. -/
inductive SocketAuthResult
  | admitted (user : UserRec)
  | rejected (msg : String)
deriving DecidableEq, Repr

/-- The io.use middleware: require a handshake auth token, jwt.verify it with
JWT_SECRET (a thrown verify error is caught and mapped to the generic
rejection), look the user up by decoded.id, and admit.  Note that, unlike
protect, no token-type check and no isActive check are performed. -/
def socketAuth (db : List UserRec) (jwtSecret : String) (nowSec : Nat)
    (handshakeToken : Option SignedToken) : SocketAuthResult :=
  match handshakeToken with
  | none => .rejected "Authentication required"
  | some tok =>
    match jwtVerify tok jwtSecret nowSec with
    | .error _ => .rejected "Authentication failed"
    | .ok decoded =>
      match findById db decoded.id with
      | none => .rejected "User not found"
      | some user => .admitted user

/-! ### Login with lockout (authController.js login, post user lookup) -/

/-- Outcome of a login attempt for a found account. -/
inductive LoginResult
  | deactivated
  | locked (minutesRemaining : Nat)
  | invalidCredentials
  | success (accessToken refreshToken : SignedToken)
deriving DecidableEq, Repr

/-- Math.ceil((lockUntil - Date.now()) / (60 * 1000)). -/
def lockTimeRemainingMinutes (u : UserRec) (nowMs : Nat) : Nat :=
  match u.lockUntil with
  | some l => (l - nowMs + 59999) / 60000
  | none => 0

/-- The body of the login handler once the account has been found: active
check, lock check (423 with remaining minutes, state untouched), password
compare (mismatch increments the attempt counter), then on success reset the
counter, issue the token pair and persist the hash of the new refresh token
with a 7-day expiry. -/
def loginStep (u : UserRec) (password : String) (nowMs : Nat)
    (accessSecret refreshSecret : String) : LoginResult × UserRec :=
  if u.isActive = false then (.deactivated, u)
  else if isLocked u nowMs then (.locked (lockTimeRemainingMinutes u nowMs), u)
  else if comparePassword u password = false then
    (.invalidCredentials, incLoginAttempts u nowMs)
  else
    let u2 := resetLoginAttempts u nowMs
    let accessToken := generateAccessToken u.id nowMs accessSecret
    let refreshTok := generateRefreshToken u.id nowMs refreshSecret
    (.success accessToken refreshTok,
     { u2 with refreshTokenHash := some (sha256 refreshTok),
               refreshTokenExpiry := some (nowMs + 7 * 24 * 60 * 60 * 1000) })

/-! ### Refresh-token endpoint (authController.js refreshToken) -/

/-- Outcome of the refresh-token endpoint.  The first three constructors are
the three 401 responses of the handler. -/
inductive RefreshResult
  | noToken
  | invalidToken
  | noMatch
  | ok (accessToken refreshToken : SignedToken)
deriving DecidableEq, Repr

/-- Whether a refresh outcome is one of the 401 AuthError responses. -/
def isRefreshAuthError : RefreshResult → Bool
  | .noToken => true
  | .invalidToken => true
  | .noMatch => true
  | .ok _ _ => false

/-- The User.findOne filter of the refresh handler: matching id, stored hash
equal to the hash of the presented token, stored expiry strictly in the
future. -/
def refreshFind (db : List UserRec) (userId : Nat) (digest : Sha256Digest)
    (nowMs : Nat) : Option UserRec :=
  db.find? (fun u =>
    u.id == userId && u.refreshTokenHash == some digest &&
      (match u.refreshTokenExpiry with
       | some e => decide (nowMs < e)
       | none => false))

/-- refreshToken handler: take the presented token (cookie or body), verify
it against the refresh secret, find the user whose stored hash matches the
presented token with a live expiry, then rotate: issue a new access and a
new refresh token and persist the hash of the new refresh token with a fresh
7-day expiry. -/
def refreshEndpoint (db : List UserRec) (accessSecret refreshSecret : String)
    (nowMs : Nat) (provided : Option SignedToken) : RefreshResult × List UserRec :=
  match provided with
  | none => (.noToken, db)
  | some tok =>
    match jwtVerify tok refreshSecret (nowMs / 1000) with
    | .error _ => (.invalidToken, db)
    | .ok decoded =>
      match refreshFind db decoded.id (sha256 tok) nowMs with
      | none => (.noMatch, db)
      | some user =>
        let newAccessToken := generateAccessToken user.id nowMs accessSecret
        let newRefreshToken := generateRefreshToken user.id nowMs refreshSecret
        let user2 := { user with
          refreshTokenHash := some (sha256 newRefreshToken)
          refreshTokenExpiry := some (nowMs + 7 * 24 * 60 * 60 * 1000) }
        (.ok newAccessToken newRefreshToken,
         db.map (fun v => if v.id = user.id then user2 else v))

/-! ### Registration (authController.js register plus the User schema) -/

/-- JS String.prototype.trim, modelled on the character list. -/
def jsTrim (s : String) : String :=
  ⟨((s.data.dropWhile Char.isWhitespace).reverse.dropWhile Char.isWhitespace).reverse⟩

/-- JS String.prototype.toUpperCase, modelled on the character list. -/
def jsToUpper (s : String) : String := ⟨s.data.map Char.toUpper⟩

/-- JS String.prototype.toLowerCase, modelled on the character list. -/
def jsToLower (s : String) : String := ⟨s.data.map Char.toLower⟩

/-- Outcome of the register handler, tagged with the HTTP status class it is
sent with. -/
inductive RegisterResult
  | badRequest (msg : String)
  | serverError (msg : String)
  | created (id : Nat) (name email : String)
deriving DecidableEq, Repr

/-- HTTP status of a register outcome (400 / 500 / 201). -/
def registerStatus : RegisterResult → Nat
  | .badRequest _ => 400
  | .serverError _ => 500
  | .created _ _ _ => 201

/-- JS truthiness of an optional string request field: present and non-empty. -/
def fieldPresent : Option String → Bool
  | none => false
  | some s => decide (s ≠ "")

/-- The name validators of the User schema: trim setter, required, minlength
2, maxlength 50. -/
def nameValid (name : String) : Bool :=
  decide (jsTrim name ≠ "") && decide (2 ≤ (jsTrim name).length) &&
    decide ((jsTrim name).length ≤ 50)

/-- register handler: 400 when a field is missing or the password is shorter
than 6, 400 when a user with the email already exists (the schema lowercase
and trim setters are applied to the query value), otherwise User.create runs
the schema validators (name trim/minlength/maxlength, the email format regex
- kept abstract as the parameter emailFormatOk since no claim depends on it -
and the password minlength); a validator failure throws a Mongoose
ValidationError which the catch block of the handler maps to a 500 response. -/
def register (emailFormatOk : String → Bool) (db : List UserRec)
    (name email password : Option String) : RegisterResult :=
  if !(fieldPresent name && fieldPresent email && fieldPresent password) then
    .badRequest "Please provide name, email and password"
  else
    let nameS := name.getD ""
    let emailNorm := jsToLower (jsTrim (email.getD ""))
    let pwS := password.getD ""
    if pwS.length < 6 then .badRequest "Password must be at least 6 characters"
    else
      match db.find? (fun u => u.email == emailNorm) with
      | some _ => .badRequest "User with this email already exists"
      | none =>
        if !(nameValid nameS) || !(emailFormatOk emailNorm) || pwS.length < 6 then
          .serverError "User validation failed"
        else .created db.length (jsTrim nameS) emailNorm

/-! ### Subscription controller (Backend/controllers/stockController.js) -/

/-- SUPPORTED_STOCKS as the controller sees them (strings). -/
def SUPPORTED_STOCK_SYMBOLS : List String :=
  ["AAPL", "GOOG", "TSLA", "AMZN", "META", "NVDA", "MSFT"]

/-- String(ticker or empty).trim().toUpperCase(). -/
def normalizeTicker (ticker : Option String) : String :=
  jsToUpper (jsTrim (ticker.getD ""))

/-- Outcome of the subscribe/unsubscribe handlers. -/
inductive SubResult
  | invalidTicker
  | alreadySubscribed (t : String)
  | notSubscribed (t : String)
  | ok (data : List String)
deriving DecidableEq, Repr

/-- subscribeStock, acting on the found user record subscription list:
validate the normalized ticker, 400 conflict when already present, else push
and persist, returning the updated list. -/
def subscribeStock (subs : List String) (ticker : Option String) :
    SubResult × List String :=
  let t := normalizeTicker ticker
  if t = "" || !(SUPPORTED_STOCK_SYMBOLS.contains t) then (.invalidTicker, subs)
  else if subs.contains t then (.alreadySubscribed t, subs)
  else (.ok (subs ++ [t]), subs ++ [t])

/-- unsubscribeStock: validate the normalized ticker, 400 when absent, else
filter out every entry equal to it and persist. -/
def unsubscribeStock (subs : List String) (ticker : Option String) :
    SubResult × List String :=
  let t := normalizeTicker ticker
  if t = "" || !(SUPPORTED_STOCK_SYMBOLS.contains t) then (.invalidTicker, subs)
  else if !(subs.contains t) then (.notSubscribed t, subs)
  else
    let subs2 := subs.filter (fun s => s ≠ t)
    (.ok subs2, subs2)

/-! ### Concrete fixtures for witnesses and counterexamples -/

/-- A baseline active user record. -/
def baseUser : UserRec :=
  { id := 7
    name := "Ann"
    email := "ann@x.com"
    password := hashPassword "secret1"
    subscribedStocks := []
    refreshTokenHash := none
    refreshTokenExpiry := none
    lastLogin := none
    loginAttempts := 0
    lockUntil := none
    passwordChangedAt := none
    isActive := true }

/-- A deactivated account. -/
def inactiveUser : UserRec := { baseUser with id := 8, isActive := false }

/-- A valid access token for user 8, issued at second 0. -/
def accessTok8 : SignedToken := generateAccessToken 8 0 "shh"

/-- A refresh-type token for user 7 signed with the same secret, as happens
when JWT_REFRESH_SECRET is unset and defaults to JWT_SECRET. -/
def refreshTok7 : SignedToken := generateRefreshToken 7 0 "shh"

/-- An access token for user 7 whose payload carries no type field at all. -/
def untypedTok7 : SignedToken :=
  { payload := { id := 7, type := none, iat := 0, exp := 900 }, secret := "shh" }

/-- The raw refresh token of the C3 scenario, issued during second 100. -/
def oldRefreshTok : SignedToken := generateRefreshToken 7 100000 "rsec"

/-- User 7 holding the hash of oldRefreshTok with a live expiry. -/
def refreshUser : UserRec :=
  { baseUser with
    refreshTokenHash := some (sha256 oldRefreshTok)
    refreshTokenExpiry := some 700000000 }

/-- A locked account: lockUntil one million ms. -/
def lockedUser : UserRec := { baseUser with loginAttempts := 5, lockUntil := some 1000000 }

/-- A refresh token issued during second 50. -/
def refreshTok50 : SignedToken := generateRefreshToken 7 50000 "rsec"

/-- User 7 holding the hash of refreshTok50 with a live expiry. -/
def refreshUser50 : UserRec :=
  { baseUser with
    refreshTokenHash := some (sha256 refreshTok50)
    refreshTokenExpiry := some 700000000 }

/-! ## Theorems -/

/-- The forEach loop of updatePrices updates each ticker's price entry from
its own previous value only. -/
theorem updatePricesState_stockPrices (delta : Ticker → ℚ) (st : PriceState)
    (t : Ticker) :
    (updatePricesState delta st).stockPrices t =
      generatePrice (st.stockPrices t) (delta t) := by
  cases t <;>
    simp [updatePricesState, SUPPORTED_TICKERS, tickTicker, Function.update]

/-- The forEach loop of updatePrices updates each ticker's history entry from
its own previous history and new price only. -/
theorem updatePricesState_priceHistory (delta : Ticker → ℚ) (st : PriceState)
    (t : Ticker) :
    (updatePricesState delta st).priceHistory t =
      capHistory (st.priceHistory t ++ [generatePrice (st.stockPrices t) (delta t)]) := by
  cases t <;>
    simp [updatePricesState, SUPPORTED_TICKERS, tickTicker, Function.update]

/-- generatePrice is floored at 1. -/
theorem one_le_generatePrice (c d : ℚ) : 1 ≤ generatePrice c d :=
  le_max_left 1 _

/-- capHistory keeps the history at 50 entries or fewer, given that at most
one point was appended to a list that respected the cap. -/
theorem capHistory_length_le (l : List ℚ) (p : ℚ) (h : l.length ≤ 50) :
    (capHistory (l ++ [p])).length ≤ 50 := by
  unfold capHistory
  by_cases hlen : (l ++ [p]).length > 50
  · simp only [hlen, if_pos, List.length_tail]
    simp only [List.length_append, List.length_singleton] at hlen ⊢
    omega
  · simp only [hlen, if_neg, not_false_eq_true]
    simp only [List.length_append, List.length_singleton] at hlen ⊢
    omega

/-- The per-ticker invariant of the engine: price at least 1, history at most
50 points. -/
def PriceInv (st : PriceState) : Prop :=
  ∀ t : Ticker, 1 ≤ st.stockPrices t ∧ (st.priceHistory t).length ≤ 50

/-- The seed state satisfies the invariant. -/
theorem priceInv_seed : PriceInv seedState := by
  intro t
  cases t <;> exact ⟨by norm_num [seedState, initialStockPrices], by simp [seedState]⟩

/-- One tick preserves the invariant. -/
theorem priceInv_step (delta : Ticker → ℚ) (st : PriceState) (h : PriceInv st) :
    PriceInv (updatePricesState delta st) := by
  intro t
  refine ⟨?_, ?_⟩
  · rw [updatePricesState_stockPrices]
    exact one_le_generatePrice _ _
  · rw [updatePricesState_priceHistory]
    exact capHistory_length_le _ _ (h t).2

/-- Any number of ticks from any invariant state stays within the invariant. -/
theorem priceInv_runTicks (deltas : List (Ticker → ℚ)) (st : PriceState)
    (h : PriceInv st) : PriceInv (runTicks deltas st) := by
  induction deltas generalizing st with
  | nil => exact h
  | cons d rest ih => exact ih _ (priceInv_step d st h)

/-- C2: for every supported ticker and every number of consecutive ticks from
the seed state, the current price is at least 1 (generatePrice floors the
rounded value at 1) and the rolling history never exceeds 50 entries (the
oldest point is shifted off once the cap is exceeded). -/
theorem price_floor_and_history_cap (deltas : List (Ticker → ℚ)) (t : Ticker) :
    1 ≤ (runTicks deltas seedState).stockPrices t ∧
      ((runTicks deltas seedState).priceHistory t).length ≤ 50 :=
  priceInv_runTicks deltas seedState priceInv_seed t

/-- C1: on every scheduler tick, the price_update event emitted to a ticker's
room carries exactly the price, change, history and timestamp of that
ticker's entry in the all_prices_update payload of the same tick - both are
read from the single snapshot returned by updatePrices for that tick. -/
theorem broadcast_per_ticker_matches_all_update (delta : Ticker → ℚ)
    (ts : String) (st : PriceState) (t : Ticker) :
    ((broadcastTick delta ts st).2.2).find? (fun u => u.ticker == t) =
      some { ticker := t
             price := ((broadcastTick delta ts st).2.1.stocks t).price
             change := ((broadcastTick delta ts st).2.1.stocks t).change
             history := ((broadcastTick delta ts st).2.1.stocks t).history
             timestamp := (broadcastTick delta ts st).2.1.timestamp } := by
  cases t <;> rfl

/-- A list is a prefix of itself followed by anything. -/
theorem isPrefixOf_append_self (l t : List Char) : l.isPrefixOf (l ++ t) = true := by
  induction l with
  | nil => simp [List.isPrefixOf]
  | cons a as ih => simp [List.isPrefixOf, ih]

/-- Every room produced by getTickerRoom starts with the ticker tag. -/
theorem hasTickerTag_mkTickerRoom (t : RoomName) :
    hasTickerTag (mkTickerRoom t) = true :=
  isPrefixOf_append_self tickerTag t

/-- After one reconciliation, the ticker rooms of the socket are exactly the
rooms of the desired subscription list. -/
theorem getSocketTickerRooms_sync (subs : List RoomName) (rooms : Finset RoomName) :
    getSocketTickerRooms (syncTickerRooms (some subs) rooms) =
      (subs.map mkTickerRoom).toFinset := by
  ext r
  constructor
  · intro hr
    rw [getSocketTickerRooms, Finset.mem_filter] at hr
    obtain ⟨hmem, htag⟩ := hr
    simp only [syncTickerRooms, Option.getD_some, Finset.mem_union, Finset.mem_sdiff,
      getSocketTickerRooms, Finset.mem_filter] at hmem
    rcases hmem with ⟨hrooms, hnot⟩ | ⟨hdes, _⟩
    · by_contra hnd
      exact hnot ⟨⟨hrooms, htag⟩, hnd⟩
    · exact hdes
  · intro hr
    have htag : hasTickerTag r = true := by
      rw [List.mem_toFinset] at hr
      obtain ⟨t, _, rfl⟩ := List.mem_map.mp hr
      exact hasTickerTag_mkTickerRoom t
    rw [getSocketTickerRooms, Finset.mem_filter]
    refine ⟨?_, htag⟩
    simp only [syncTickerRooms, Option.getD_some, Finset.mem_union, Finset.mem_sdiff,
      getSocketTickerRooms, Finset.mem_filter]
    by_cases hcur : r ∈ rooms
    · exact Or.inl ⟨hcur, fun h => h.2 hr⟩
    · exact Or.inr ⟨hr, fun h => hcur h.1⟩

/-- A second reconciliation with the same list changes nothing. -/
theorem syncTickerRooms_idem (subs : List RoomName) (rooms : Finset RoomName) :
    syncTickerRooms (some subs) (syncTickerRooms (some subs) rooms) =
      syncTickerRooms (some subs) rooms := by
  have hA := getSocketTickerRooms_sync subs rooms
  set s := syncTickerRooms (some subs) rooms with hs
  have hdef : syncTickerRooms (some subs) s =
      (s \ (getSocketTickerRooms s \ (subs.map mkTickerRoom).toFinset)) ∪
        ((subs.map mkTickerRoom).toFinset \ getSocketTickerRooms s) := rfl
  rw [hdef, hA, Finset.sdiff_self, Finset.sdiff_empty, Finset.union_empty]

/-- Reconciliation only depends on the set of desired tickers, not on the
order or multiplicity of the list. -/
theorem syncTickerRooms_order_indep (subs subs2 : List RoomName)
    (rooms : Finset RoomName) (h : subs.toFinset = subs2.toFinset) :
    syncTickerRooms (some subs) rooms = syncTickerRooms (some subs2) rooms := by
  have hmem : ∀ a, a ∈ subs ↔ a ∈ subs2 := fun a => by
    rw [← List.mem_toFinset, h, List.mem_toFinset]
  have hmap : (subs.map mkTickerRoom).toFinset = (subs2.map mkTickerRoom).toFinset := by
    ext x
    simp only [List.mem_toFinset, List.mem_map]
    constructor
    · rintro ⟨a, ha, rfl⟩
      exact ⟨a, (hmem a).mp ha, rfl⟩
    · rintro ⟨a, ha, rfl⟩
      exact ⟨a, (hmem a).mpr ha, rfl⟩
  simp only [syncTickerRooms, Option.getD_some, hmap]

/-- Rooms that are not ticker rooms (such as the personal user room) are left
untouched by reconciliation. -/
theorem syncTickerRooms_preserves_other (subs : List RoomName)
    (rooms : Finset RoomName) (r : RoomName) (h : hasTickerTag r = false) :
    r ∈ syncTickerRooms (some subs) rooms ↔ r ∈ rooms := by
  simp only [syncTickerRooms, Option.getD_some, Finset.mem_union, Finset.mem_sdiff,
    getSocketTickerRooms, Finset.mem_filter]
  constructor
  · rintro (⟨hr, _⟩ | ⟨hd, _⟩)
    · exact hr
    · exfalso
      rw [List.mem_toFinset] at hd
      obtain ⟨t, _, rfl⟩ := List.mem_map.mp hd
      rw [hasTickerTag_mkTickerRoom] at h
      exact Bool.noConfusion h
  · intro hr
    refine Or.inl ⟨hr, fun hx => ?_⟩
    rw [h] at hx
    exact Bool.noConfusion hx.1.2

/-- C6: channel-membership reconciliation is exact, idempotent and
order-independent - one application makes the ticker-room set exactly the
room set of the desired list (the room set is a mathematical set, so no
duplicates can arise), a second application with the same list changes
nothing, any permutation or duplication of the desired list yields the same
result, and non-ticker rooms are untouched. -/
theorem sync_ticker_rooms_reconciliation (subs : List RoomName)
    (rooms : Finset RoomName) :
    getSocketTickerRooms (syncTickerRooms (some subs) rooms) =
        (subs.map mkTickerRoom).toFinset ∧
      syncTickerRooms (some subs) (syncTickerRooms (some subs) rooms) =
        syncTickerRooms (some subs) rooms ∧
      (∀ subs2 : List RoomName, subs.toFinset = subs2.toFinset →
        syncTickerRooms (some subs) rooms = syncTickerRooms (some subs2) rooms) ∧
      (∀ r : RoomName, hasTickerTag r = false →
        (r ∈ syncTickerRooms (some subs) rooms ↔ r ∈ rooms)) :=
  ⟨getSocketTickerRooms_sync subs rooms,
   syncTickerRooms_idem subs rooms,
   fun subs2 h => syncTickerRooms_order_indep subs subs2 rooms h,
   fun r h => syncTickerRooms_preserves_other subs rooms r h⟩

/-- Witness for C6 at a concrete connection: subscriptions [AAPL, MSFT]
against current rooms consisting of a stale TSLA ticker room and a personal
room, compared with the reversed, duplicated desired list. -/
theorem sync_ticker_rooms_reconciliation_witness :
    getSocketTickerRooms (syncTickerRooms
        (some [String.toList "AAPL", String.toList "MSFT"])
        {String.toList "ticker:TSLA", String.toList "user_7"}) =
      ([String.toList "AAPL", String.toList "MSFT"].map mkTickerRoom).toFinset ∧
    syncTickerRooms (some [String.toList "AAPL", String.toList "MSFT"])
        {String.toList "ticker:TSLA", String.toList "user_7"} =
      syncTickerRooms
        (some [String.toList "MSFT", String.toList "AAPL", String.toList "AAPL"])
        {String.toList "ticker:TSLA", String.toList "user_7"} ∧
    (String.toList "user_7" ∈ syncTickerRooms
        (some [String.toList "AAPL", String.toList "MSFT"])
        {String.toList "ticker:TSLA", String.toList "user_7"} ↔
      String.toList "user_7" ∈
        ({String.toList "ticker:TSLA", String.toList "user_7"} : Finset RoomName)) := by
  have h := sync_ticker_rooms_reconciliation
    [String.toList "AAPL", String.toList "MSFT"]
    {String.toList "ticker:TSLA", String.toList "user_7"}
  exact ⟨h.1,
    h.2.2.1 [String.toList "MSFT", String.toList "AAPL", String.toList "AAPL"]
      (by decide),
    h.2.2.2 (String.toList "user_7") (by decide)⟩

/-- Filtering by disequality with an absent element leaves a list unchanged. -/
theorem filter_ne_of_not_mem (l : List String) (t : String) (h : t ∉ l) :
    l.filter (fun s => s ≠ t) = l := by
  refine List.filter_eq_self.mpr fun a ha => ?_
  show decide (a ≠ t) = true
  exact decide_eq_true (fun he : a = t => h (he ▸ ha))

/-- C7: for a user whose list does not contain the (normalized) ticker,
subscribe followed by unsubscribe restores the original list, and a second
subscribe after a successful first one fails with the conflict response and
leaves the persisted list unchanged. -/
theorem subscribe_unsubscribe_round_trip (subs : List String)
    (ticker : Option String) (hnot : normalizeTicker ticker ∉ subs) :
    (unsubscribeStock (subscribeStock subs ticker).2 ticker).2 = subs ∧
      (∀ l, (subscribeStock subs ticker).1 = .ok l →
        (subscribeStock (subscribeStock subs ticker).2 ticker).1 =
            .alreadySubscribed (normalizeTicker ticker) ∧
          (subscribeStock (subscribeStock subs ticker).2 ticker).2 =
            (subscribeStock subs ticker).2) := by
  by_cases hval : normalizeTicker ticker = "" ∨
      normalizeTicker ticker ∉ SUPPORTED_STOCK_SYMBOLS
  · constructor
    · simp [subscribeStock, unsubscribeStock, hval]
    · intro l hl
      simp [subscribeStock, hval] at hl
  · have hts : ¬ normalizeTicker ticker = "" := (not_or.mp hval).1
    have hsupp : normalizeTicker ticker ∈ SUPPORTED_STOCK_SYMBOLS :=
      not_not.mp (not_or.mp hval).2
    have hsub : subscribeStock subs ticker =
        (.ok (subs ++ [normalizeTicker ticker]), subs ++ [normalizeTicker ticker]) := by
      simp [subscribeStock, hts, hsupp, hnot]
    have hmem2 : normalizeTicker ticker ∈ subs ++ [normalizeTicker ticker] :=
      List.mem_append_right subs (List.mem_singleton.mpr rfl)
    have hfilter : (subs ++ [normalizeTicker ticker]).filter
        (fun s => s ≠ normalizeTicker ticker) = subs := by
      rw [List.filter_append, filter_ne_of_not_mem subs _ hnot]
      simp
    refine ⟨?_, fun l _ => ⟨?_, ?_⟩⟩
    · rw [hsub]
      simp [unsubscribeStock, hts, hsupp, hmem2, hfilter]
      exact fun a ha he => hnot (he ▸ ha)
    · rw [hsub]
      simp [subscribeStock, hts, hsupp, hmem2]
    · rw [hsub]
      simp [subscribeStock, hts, hsupp, hmem2]

/-- Witness for C7: subscribing aapl on an empty list and unsubscribing it
restores the empty list, and the duplicate subscribe is the conflict
response. -/
theorem subscribe_unsubscribe_round_trip_witness :
    (unsubscribeStock (subscribeStock [] (some "aapl")).2 (some "aapl")).2 =
        ([] : List String) ∧
      (subscribeStock (subscribeStock [] (some "aapl")).2 (some "aapl")).1 =
        .alreadySubscribed (normalizeTicker (some "aapl")) := by
  have h := subscribe_unsubscribe_round_trip [] (some "aapl") (by decide)
  exact ⟨h.1, (h.2 ["AAPL"] (by decide)).1⟩

/-- C10: a successful unsubscribe removes every occurrence of the normalized
ticker from the stored list (the handler filters), so the persisted and
returned list has zero occurrences of that ticker even if it previously
appeared more than once, and every other entry is kept in its original
order. -/
theorem unsubscribe_removes_all_occurrences (subs : List String)
    (ticker : Option String)
    (hsup : normalizeTicker ticker ∈ SUPPORTED_STOCK_SYMBOLS)
    (hmem : normalizeTicker ticker ∈ subs) :
    (unsubscribeStock subs ticker).1 =
        .ok (subs.filter (fun s => s ≠ normalizeTicker ticker)) ∧
      (unsubscribeStock subs ticker).2.count (normalizeTicker ticker) = 0 ∧
      (∀ s, s ≠ normalizeTicker ticker →
        (unsubscribeStock subs ticker).2.count s = subs.count s) ∧
      (unsubscribeStock subs ticker).2.Sublist subs := by
  have hts : ¬ normalizeTicker ticker = "" := fun h =>
    absurd (h ▸ hsup) (by decide)
  have hunfold : unsubscribeStock subs ticker =
      (.ok (subs.filter (fun s => s ≠ normalizeTicker ticker)),
       subs.filter (fun s => s ≠ normalizeTicker ticker)) := by
    simp [unsubscribeStock, hts, hsup, hmem]
  refine ⟨by rw [hunfold], ?_, ?_, ?_⟩
  · rw [hunfold]
    refine List.count_eq_zero.mpr ?_
    intro hx
    have := (List.mem_filter.mp hx).2
    simp at this
  · intro s hs
    rw [hunfold]
    exact List.count_filter (by simpa using hs)
  · rw [hunfold]
    exact List.filter_sublist subs

/-- Witness for C10: unsubscribing aapl from a list holding AAPL twice leaves
zero occurrences, keeps the MSFT count, and the result is a sublist of the
original. -/
theorem unsubscribe_removes_all_occurrences_witness :
    (unsubscribeStock ["AAPL", "MSFT", "AAPL"] (some "aapl")).2.count
        (normalizeTicker (some "aapl")) = 0 ∧
      (unsubscribeStock ["AAPL", "MSFT", "AAPL"] (some "aapl")).2.count "MSFT" =
        (["AAPL", "MSFT", "AAPL"] : List String).count "MSFT" ∧
      (unsubscribeStock ["AAPL", "MSFT", "AAPL"] (some "aapl")).2.Sublist
        ["AAPL", "MSFT", "AAPL"] := by
  have h := unsubscribe_removes_all_occurrences ["AAPL", "MSFT", "AAPL"]
    (some "aapl") (by decide) (by decide)
  exact ⟨h.2.1, h.2.2.1 "MSFT" (by decide), h.2.2.2⟩

/-- C5: lockout lifecycle of the login handler for an active account. A
password mismatch while not locked (and with no expired lock) yields the
invalid-credentials failure and increments the attempt counter, setting a
lock 2 hours ahead exactly when the incremented count reaches 5 and leaving
the lock field unchanged below that; while locked, any attempt (whatever the
password) yields the 423 response with the remaining minutes rounded up and
leaves the stored record untouched; once the lock timestamp has passed, a
correct-password attempt succeeds and resets the counter to 0, clearing the
lock. -/
theorem login_lockout_lifecycle (u : UserRec) (pw : String) (nowMs : Nat)
    (asec rsec : String) (hact : u.isActive = true) :
    (comparePassword u pw = false → isLocked u nowMs = false →
        lockExpired u nowMs = false →
        (loginStep u pw nowMs asec rsec).1 = .invalidCredentials ∧
          (loginStep u pw nowMs asec rsec).2.loginAttempts = u.loginAttempts + 1 ∧
          (4 ≤ u.loginAttempts →
            (loginStep u pw nowMs asec rsec).2.lockUntil =
              some (nowMs + 2 * 60 * 60 * 1000)) ∧
          (u.loginAttempts + 1 < 5 →
            (loginStep u pw nowMs asec rsec).2.lockUntil = u.lockUntil)) ∧
      (∀ l, u.lockUntil = some l → nowMs < l →
        (loginStep u pw nowMs asec rsec).1 =
            .locked ((l - nowMs + 59999) / 60000) ∧
          (loginStep u pw nowMs asec rsec).2 = u) ∧
      (∀ l, u.lockUntil = some l → l ≤ nowMs → comparePassword u pw = true →
        (∃ a r, (loginStep u pw nowMs asec rsec).1 = .success a r) ∧
          (loginStep u pw nowMs asec rsec).2.loginAttempts = 0 ∧
          (loginStep u pw nowMs asec rsec).2.lockUntil = none) := by
  refine ⟨fun hcmp hlock hexp => ?_, fun l hl hnow => ?_, fun l hl hnow hcmp => ?_⟩
  · have hstep : loginStep u pw nowMs asec rsec =
        (.invalidCredentials, incLoginAttempts u nowMs) := by
      simp [loginStep, hact, hlock, hcmp]
    refine ⟨by rw [hstep], ?_, ?_, ?_⟩
    · rw [hstep]
      by_cases h5 : 5 ≤ u.loginAttempts + 1 <;> simp [incLoginAttempts, hexp, h5]
    · intro h4
      rw [hstep]
      have h5 : 5 ≤ u.loginAttempts + 1 := by omega
      simp [incLoginAttempts, hexp, h5]
    · intro hlt
      rw [hstep]
      have h5 : ¬ 5 ≤ u.loginAttempts + 1 := by omega
      simp [incLoginAttempts, hexp, h5]
  · have hlocked : isLocked u nowMs = true := by simp [isLocked, hl, hnow]
    have hrem : lockTimeRemainingMinutes u nowMs = (l - nowMs + 59999) / 60000 := by
      simp [lockTimeRemainingMinutes, hl]
    constructor
    · simp [loginStep, hact, hlocked, hrem]
    · simp [loginStep, hact, hlocked]
  · have hunlocked : isLocked u nowMs = false := by
      simp [isLocked, hl]
      omega
    have hstep : loginStep u pw nowMs asec rsec =
        (.success (generateAccessToken u.id nowMs asec)
            (generateRefreshToken u.id nowMs rsec),
         { resetLoginAttempts u nowMs with
             refreshTokenHash :=
               some (sha256 (generateRefreshToken u.id nowMs rsec))
             refreshTokenExpiry := some (nowMs + 7 * 24 * 60 * 60 * 1000) }) := by
      simp [loginStep, hact, hunlocked, hcmp]
    exact ⟨⟨_, _, by rw [hstep]⟩,
      by rw [hstep]; rfl,
      by rw [hstep]; rfl⟩

/-- Witness for C5: the locked fixture account, with the correct password,
at time 400000 ms against a lock expiring at 1000000 ms, is refused with 10
minutes remaining and an unchanged record. -/
theorem login_lockout_lifecycle_witness :
    (loginStep lockedUser "secret1" 400000 "as" "rs").1 = .locked 10 ∧
      (loginStep lockedUser "secret1" 400000 "as" "rs").2 = lockedUser := by
  have h := (login_lockout_lifecycle lockedUser "secret1" 400000 "as" "rs"
    rfl).2.1 1000000 rfl (by omega)
  exact ⟨h.1.trans (by decide), h.2⟩

/-- A successful jwt.verify returns the payload of the presented token. -/
theorem jwtVerify_ok_payload (tok : SignedToken) (secret : String)
    (nowSec : Nat) (p : TokenPayload) (h : jwtVerify tok secret nowSec = .ok p) :
    p = tok.payload := by
  unfold jwtVerify at h
  split_ifs at h
  exact (Except.ok.injEq _ _ ▸ h).symm

/-- protect on a token whose signature and expiry verify reduces to the type
check, user lookup, active check and password-change check. -/
theorem protect_some_ok (db : List UserRec) (secret : String) (nowSec : Nat)
    (tok : SignedToken) (hv : jwtVerify tok secret nowSec = .ok tok.payload) :
    protect db secret nowSec (some tok) =
      (if typeCheckRejects tok.payload.type then .error .INVALID_TOKEN_TYPE
       else
         match findById db tok.payload.id with
         | none => .error .USER_NOT_FOUND
         | some user =>
           if user.isActive = false then .error .ACCOUNT_DEACTIVATED
           else if changedPasswordAfter user tok.payload.iat then
             .error .PASSWORD_CHANGED
           else .ok user) := by
  simp only [protect]
  rw [hv]

/-- After a passed type check, no later branch of protect produces the
INVALID_TOKEN_TYPE code. -/
theorem protect_rest_ne_type_err (db : List UserRec) (p : TokenPayload) :
    (match findById db p.id with
     | none => (.error .USER_NOT_FOUND : Except AuthCode UserRec)
     | some user =>
       if user.isActive = false then .error .ACCOUNT_DEACTIVATED
       else if changedPasswordAfter user p.iat then .error .PASSWORD_CHANGED
       else .ok user) ≠ .error .INVALID_TOKEN_TYPE := by
  cases findById db p.id with
  | none => simp
  | some user =>
    by_cases ha : user.isActive = false <;>
      by_cases hpc : changedPasswordAfter user p.iat = true <;>
        simp [ha, hpc]

/-- C9: the INVALID_TOKEN_TYPE rejection of protect fires only when the
decoded payload carries a type field different from access; a validly
signed, unexpired token with no type field at all passes the type check and
is treated as an access token. -/
theorem protect_type_check_only_when_present (db : List UserRec)
    (secret : String) (nowSec : Nat) (tok : SignedToken) :
    (protect db secret nowSec (some tok) = .error .INVALID_TOKEN_TYPE →
        ∃ s, tok.payload.type = some s ∧ s ≠ "access") ∧
      (tok.payload.type = none → tok.secret = secret →
        nowSec < tok.payload.exp →
        ∀ u, findById db tok.payload.id = some u → u.isActive = true →
          changedPasswordAfter u tok.payload.iat = false →
          protect db secret nowSec (some tok) = .ok u) := by
  constructor
  · intro h
    cases hv : jwtVerify tok secret nowSec with
    | error e =>
      cases e <;>
        · simp only [protect] at h
          rw [hv] at h
          simp at h
    | ok decoded =>
      have hdec := jwtVerify_ok_payload tok secret nowSec decoded hv
      subst hdec
      rw [protect_some_ok db secret nowSec tok hv] at h
      by_cases htc : typeCheckRejects tok.payload.type = true
      · cases hty : tok.payload.type with
        | none =>
          rw [hty] at htc
          exact absurd htc (by simp [typeCheckRejects])
        | some s =>
          refine ⟨s, rfl, ?_⟩
          rw [hty] at htc
          simp [typeCheckRejects] at htc
          exact htc.2
      · rw [if_neg htc] at h
        exact absurd h (protect_rest_ne_type_err db tok.payload)
  · intro hty hsec hexp u hf hactive hpc
    have hne : ¬ (tok.payload.exp ≤ nowSec) := by omega
    have hv : jwtVerify tok secret nowSec = .ok tok.payload := by
      simp [jwtVerify, hsec, hne]
    rw [protect_some_ok db secret nowSec tok hv]
    have htc : typeCheckRejects tok.payload.type = false := by
      rw [hty]
      rfl
    simp [htc, hf, hactive, hpc]

/-- Witness for C9: a validly signed, unexpired token with no type field for
the active fixture user passes protect. -/
theorem protect_type_check_only_when_present_witness :
    protect [baseUser] "shh" 10 (some untypedTok7) = .ok baseUser :=
  (protect_type_check_only_when_present [baseUser] "shh" 10 untypedTok7).2
    rfl rfl (by decide) baseUser rfl rfl rfl

/-- Counterexample for C4: the socket handshake admits a deactivated account
that protect rejects with ACCOUNT_DEACTIVATED, and admits a refresh-type
token (verifiable under the access secret when JWT_REFRESH_SECRET defaults
to JWT_SECRET) that protect rejects with INVALID_TOKEN_TYPE - so the
handshake does not verify exactly as the HTTP gate does. -/
theorem socket_auth_missing_checks_cex :
    socketAuth [inactiveUser] "shh" 10 (some accessTok8) =
        .admitted inactiveUser ∧
      protect [inactiveUser] "shh" 10 (some accessTok8) =
        .error .ACCOUNT_DEACTIVATED ∧
      socketAuth [baseUser] "shh" 10 (some refreshTok7) = .admitted baseUser ∧
      protect [baseUser] "shh" 10 (some refreshTok7) =
        .error .INVALID_TOKEN_TYPE := by
  refine ⟨rfl, rfl, rfl, rfl⟩

/-- C4 (amended): the live-channel handshake checks only the presence of the
bearer token, its signature and expiry, and the existence of the user - any
failure there rejects the connection before admission - but it performs no
token-type check and no isActive check: every verifiable token of an
existing user is admitted, whatever its type discriminator and whatever the
account's active flag. -/
theorem socket_auth_admission_spec (db : List UserRec) (secret : String)
    (nowSec : Nat) (tok : SignedToken) :
    socketAuth db secret nowSec none = .rejected "Authentication required" ∧
      (∀ e, jwtVerify tok secret nowSec = .error e →
        socketAuth db secret nowSec (some tok) =
          .rejected "Authentication failed") ∧
      (∀ p, jwtVerify tok secret nowSec = .ok p → findById db p.id = none →
        socketAuth db secret nowSec (some tok) = .rejected "User not found") ∧
      (∀ p u, jwtVerify tok secret nowSec = .ok p → findById db p.id = some u →
        socketAuth db secret nowSec (some tok) = .admitted u) := by
  refine ⟨rfl, ?_, ?_, ?_⟩
  · intro e he
    simp [socketAuth, he]
  · intro p hp hf
    simp [socketAuth, hp, hf]
  · intro p u hp hf
    simp [socketAuth, hp, hf]

/-- Witness for C4: the deactivated fixture account is admitted by the
handshake. -/
theorem socket_auth_admission_spec_witness :
    socketAuth [inactiveUser] "shh" 10 (some accessTok8) =
      .admitted inactiveUser :=
  (socket_auth_admission_spec [inactiveUser] "shh" 10 accessTok8).2.2.2
    accessTok8.payload inactiveUser rfl rfl

/-- Counterexample for C3: a refresh performed during the same wall-clock
second as the presented token's issuance re-signs an identical token (same
payload, same second-resolution iat), so the stored hash is unchanged and a
second presentation of the previously-used raw refresh token still succeeds
instead of failing with an AuthError. -/
theorem refresh_reuse_same_second_cex :
    isRefreshAuthError
        (refreshEndpoint [refreshUser] "as" "rsec" 100400
          (some oldRefreshTok)).1 = false ∧
      isRefreshAuthError
        (refreshEndpoint
          (refreshEndpoint [refreshUser] "as" "rsec" 100400
            (some oldRefreshTok)).2
          "as" "rsec" 100900 (some oldRefreshTok)).1 = false := by
  refine ⟨rfl, rfl⟩

/-- C3 (amended): a successful refresh issues a new access and refresh token
pair and persists the SHA-256 hash of the new refresh token with a fresh
7-day expiry; provided the rotation happens in a different wall-clock second
than the presented token's issuance (so that the re-signed token differs),
any second presentation of the previously-used raw refresh token fails with
an AuthError - its hash no longer matches the stored record. -/
theorem refresh_rotation_on_use (u : UserRec) (asec rsec : String)
    (nowMs nowMs2 : Nat) (tok : SignedToken)
    (hfirst : isRefreshAuthError
      (refreshEndpoint [u] asec rsec nowMs (some tok)).1 = false)
    (hiat : nowMs / 1000 ≠ tok.payload.iat) :
    ((refreshEndpoint [u] asec rsec nowMs (some tok)).1 =
        .ok (generateAccessToken u.id nowMs asec)
          (generateRefreshToken u.id nowMs rsec) ∧
      (refreshEndpoint [u] asec rsec nowMs (some tok)).2 =
        [{ u with
            refreshTokenHash :=
              some (sha256 (generateRefreshToken u.id nowMs rsec))
            refreshTokenExpiry := some (nowMs + 7 * 24 * 60 * 60 * 1000) }]) ∧
      isRefreshAuthError
        (refreshEndpoint (refreshEndpoint [u] asec rsec nowMs (some tok)).2
          asec rsec nowMs2 (some tok)).1 = true := by
  cases hv : jwtVerify tok rsec (nowMs / 1000) with
  | error e =>
    exfalso
    have hr : refreshEndpoint [u] asec rsec nowMs (some tok) =
        (.invalidToken, [u]) := by
      simp [refreshEndpoint, hv]
    rw [hr] at hfirst
    simp [isRefreshAuthError] at hfirst
  | ok p =>
    have hp := jwtVerify_ok_payload tok rsec (nowMs / 1000) p hv
    subst hp
    cases hf : refreshFind [u] tok.payload.id (sha256 tok) nowMs with
    | none =>
      exfalso
      have hr : refreshEndpoint [u] asec rsec nowMs (some tok) =
          (.noMatch, [u]) := by
        simp [refreshEndpoint, hv, hf]
      rw [hr] at hfirst
      simp [isRefreshAuthError] at hfirst
    | some user =>
      have huser : user = u := by
        have hm := List.mem_of_find?_eq_some hf
        simpa using hm
      subst huser
      have hr : refreshEndpoint [user] asec rsec nowMs (some tok) =
          (.ok (generateAccessToken user.id nowMs asec)
            (generateRefreshToken user.id nowMs rsec),
           [{ user with
               refreshTokenHash :=
                 some (sha256 (generateRefreshToken user.id nowMs rsec))
               refreshTokenExpiry :=
                 some (nowMs + 7 * 24 * 60 * 60 * 1000) }]) := by
        simp [refreshEndpoint, hv, hf]
      refine ⟨⟨by rw [hr], by rw [hr]⟩, ?_⟩
      rw [hr]
      have hne_tok : generateRefreshToken user.id nowMs rsec ≠ tok := by
        intro he
        apply hiat
        have hpay : (generateRefreshToken user.id nowMs rsec).payload.iat =
            tok.payload.iat := by rw [he]
        simpa [generateRefreshToken] using hpay
      have hne_hash : sha256 (generateRefreshToken user.id nowMs rsec) ≠
          sha256 tok :=
        fun h => hne_tok (congrArg Sha256Digest.preimage h)
      cases hv2 : jwtVerify tok rsec (nowMs2 / 1000) with
      | error e =>
        simp [refreshEndpoint, hv2, isRefreshAuthError]
      | ok p2 =>
        have hp2 := jwtVerify_ok_payload tok rsec (nowMs2 / 1000) p2 hv2
        subst hp2
        have hbeq : (some (sha256 (generateRefreshToken user.id nowMs rsec)) ==
            some (sha256 tok)) = false :=
          beq_eq_false_iff_ne.mpr fun hc => hne_hash (Option.some.inj hc)
        have hfind2 : refreshFind
            [{ user with
                refreshTokenHash :=
                  some (sha256 (generateRefreshToken user.id nowMs rsec))
                refreshTokenExpiry :=
                  some (nowMs + 7 * 24 * 60 * 60 * 1000) }]
            tok.payload.id (sha256 tok) nowMs2 = none := by
          simp [refreshFind, List.find?, hbeq]
        simp [refreshEndpoint, hv2, hfind2, isRefreshAuthError]

/-- Witness for C3: a refresh presented at 60000 ms against a token issued
during second 50 rotates the stored hash, and the old token is then refused. -/
theorem refresh_rotation_on_use_witness :
    ((refreshEndpoint [refreshUser50] "as" "rsec" 60000
        (some refreshTok50)).1 =
      .ok (generateAccessToken refreshUser50.id 60000 "as")
        (generateRefreshToken refreshUser50.id 60000 "rsec")) ∧
      isRefreshAuthError
        (refreshEndpoint
          (refreshEndpoint [refreshUser50] "as" "rsec" 60000
            (some refreshTok50)).2
          "as" "rsec" 70000 (some refreshTok50)).1 = true := by
  have h := refresh_rotation_on_use refreshUser50 "as" "rsec" 60000 70000
    refreshTok50 rfl (by decide)
  exact ⟨h.1.1, h.2⟩

/-- Counterexample for C8: registering with the one-character name A, a fresh
email and a 7-character password is rejected, but with a 500 server-error
response (the schema ValidationError lands in the handler's catch block),
not a 400-class client validation failure as the claim states. -/
theorem register_bad_name_cex :
    registerStatus
        (register (fun _ => true) [] (some "A") (some "ann@x.com")
          (some "secret1")) = 500 ∧
      registerStatus
        (register (fun _ => true) [] (some "A") (some "ann@x.com")
          (some "secret1")) ≠ 400 := by
  refine ⟨rfl, by decide⟩

/-- C8 (amended): with all three fields present, a password of length at
least 6 and an email not already in use, a name whose trimmed length lies
outside [2, 50] makes register fail - but the failure is the 500 server
error produced when the schema ValidationError reaches the handler's catch
block, not a 400-class ValidationError response. -/
theorem register_bad_name_server_error (f : String → Bool) (db : List UserRec)
    (name email pw : String) (hn : name ≠ "") (he : email ≠ "")
    (hp : ¬ pw.length < 6)
    (hfind : db.find? (fun u => u.email == jsToLower (jsTrim email)) = none)
    (hbad : ¬ (2 ≤ (jsTrim name).length ∧ (jsTrim name).length ≤ 50)) :
    registerStatus (register f db (some name) (some email) (some pw)) = 500 := by
  have hnv : nameValid name = false := by
    unfold nameValid
    by_cases h2 : 2 ≤ (jsTrim name).length
    · have h50 : ¬ (jsTrim name).length ≤ 50 := fun hc => hbad ⟨h2, hc⟩
      simp [h2, h50]
    · simp [h2]
  have hpne : pw ≠ "" := by
    intro hh
    apply hp
    rw [hh]
    decide
  simp [register, fieldPresent, hn, he, hpne, hp, hfind, hnv, registerStatus]

/-- Witness for C8 (amended): the one-character name X with a fresh email and
a long-enough password yields the 500 response. -/
theorem register_bad_name_server_error_witness :
    registerStatus
      (register (fun _ => true) [] (some "X") (some "e@x.io")
        (some "secret1")) = 500 :=
  register_bad_name_server_error (fun _ => true) [] "X" "e@x.io" "secret1"
    (by decide) (by decide) (by decide) rfl (by decide)

end StockBroker
